import Mathlib

/-!
Verification of the tunnel lifecycle core of i2pd (`libi2pd/Tunnel.cpp`).

The development shallowly embeds the tunnel state machine, the build-message
construction, the build-response handling, the pending-tunnel registry and the
dispatcher maintenance schedules.  Cryptographic primitives
(`DecryptBuildResponseRecord`, `DecryptRecord`, `GetRetCode`,
`CreateBuildRequestRecord`, RNG) are external collaborators of `Tunnel.cpp`;
they are kept abstract (function parameters), while all control flow is
translated from the source.  Machine integers are modelled as `Nat` with
explicit `% 2^64` where unsigned wraparound matters.
-/

/-- Tunnel state machine, from `TunnelState` (declared in `Tunnel.h`,
used throughout `Tunnel.cpp`). -/
inductive TState where
  | Pending
  | BuildReplyReceived
  | BuildFailed
  | Established
  | Expiring
  | Failed
deriving DecidableEq

/-- Modelled from the spec: `STANDARD_NUM_RECORDS` (currently 4), declared in
`I2NPProtocol.h`/`Tunnel.h` which are not part of the sources. -/
def STANDARD_NUM_RECORDS : Nat := 4

/-- Modelled from the spec: `MAX_NUM_RECORDS` (currently 8), declared outside
the sources. -/
def MAX_NUM_RECORDS : Nat := 8

/-- Modelled from the spec: `TUNNEL_MANAGE_INTERVAL` is about 15 seconds
(the value lives in `Tunnel.h`, outside the sources). -/
def TUNNEL_MANAGE_INTERVAL : Nat := 15

/-- Modelled from the spec: `TUNNEL_POOLS_MANAGE_INTERVAL` is about 5 seconds. -/
def TUNNEL_POOLS_MANAGE_INTERVAL : Nat := 5

/-- Modelled from the spec: `TUNNEL_MEMORY_POOL_MANAGE_INTERVAL` is about
120 seconds. -/
def TUNNEL_MEMORY_POOL_MANAGE_INTERVAL : Nat := 120

/-- Structure `TunnelHopConfig` (declared in `TunnelConfig.h`): identity, layer/iv keys
and the record slot index assigned at build time (`int recordIndex`). -/
structure TunnelHopConfig where
  ident : Option Nat
  layerKey : Nat
  ivKey : Nat
  recordIndex : Int
deriving DecidableEq

/-- Structure `TunnelConfig`: the hop chain in traversal order (first hop at the head;
the source's `prev`/`next` pointers become list order), the short-build flag,
the record size (`GetRecordSize ()`, determined by the short flag) and the
far-end transports hint. -/
structure TunnelConfig where
  hops : List TunnelHopConfig
  isShort : Bool
  recordSize : Nat
  farEndTransports : Nat
deriving DecidableEq

/-- One hop of an established tunnel (`Tunnel::TunnelHop` in `Tunnel.h`):
identity plus the layer/iv keys that the stable decryption object is keyed
with (`decryption.SetKeys (layerKey, ivKey)`).  The identity is optional
because `hop->ident` is a pointer in the source. -/
structure TunnelHop where
  ident : Option Nat
  layerKey : Nat
  ivKey : Nat
deriving DecidableEq

/-- The runtime tunnel object: the fields of class `Tunnel` that
`Tunnel.cpp` manipulates. -/
structure Tunnel where
  config : Option TunnelConfig
  hops : List TunnelHop
  isShortBuildMessage : Bool
  farEndTransports : Nat
  state : TState
deriving DecidableEq

/-- Predicate `Tunnel::IsEstablished`: the state equals `eTunnelStateEstablished`. -/
def Tunnel.IsEstablished (t : Tunnel) : Bool :=
  t.state == TState.Established

/-- Function `Tunnel::GetInvertedPeers`: the identities of `m_Hops` in stored
(endpoint-first) order. -/
def Tunnel.GetInvertedPeers (t : Tunnel) : List (Option Nat) :=
  t.hops.map (fun h => h.ident)

/-- Function `Tunnel::GetPeers`: reverse of `GetInvertedPeers`. -/
def Tunnel.GetPeers (t : Tunnel) : List (Option Nat) :=
  (t.GetInvertedPeers).reverse

/-- Claim C10: for every tunnel, `Tunnel::GetPeers` returns exactly the
reverse of the list returned by `Tunnel::GetInvertedPeers`. -/
theorem Tunnel.GetPeers_eq_reverse_GetInvertedPeers (t : Tunnel) :
    t.GetPeers = t.GetInvertedPeers.reverse := rfl

/-- The selection loop of `Tunnels::GetNextOutboundTunnel`: walk the list;
every established tunnel is remembered and bumps the counter `i`; the loop
breaks once `i > ind` with a tunnel in hand; at the end the last remembered
tunnel is returned. -/
def selectOutboundLoop : List Tunnel → Nat → Nat → Option Tunnel → Option Tunnel
  | [], _, _, tunnel => tunnel
  | t :: rest, ind, i, tunnel =>
    let tunnel1 := if t.IsEstablished then some t else tunnel
    let i1 := if t.IsEstablished then i + 1 else i
    if ind < i1 ∧ tunnel1.isSome = true then tunnel1
    else selectOutboundLoop rest ind i1 tunnel1

/-- Function `Tunnels::GetNextOutboundTunnel`: empty list gives null; otherwise the
RNG value reduced modulo the list size drives the selection loop. -/
def Tunnels.GetNextOutboundTunnel (rng : Nat) (outboundTunnels : List Tunnel) :
    Option Tunnel :=
  if outboundTunnels.isEmpty then none
  else selectOutboundLoop outboundTunnels (rng % outboundTunnels.length) 0 none

/-- The number of RNG residues modulo the list size that make
`Tunnels::GetNextOutboundTunnel` return tunnel `t`. -/
def countSelecting (outboundTunnels : List Tunnel) (t : Tunnel) : Nat :=
  ((List.range outboundTunnels.length).filter
    (fun r => Tunnels.GetNextOutboundTunnel r outboundTunnels = some t)).length

/-- An established outbound tunnel used in concrete examples. -/
def exTunnelA : Tunnel :=
  { config := none, hops := [], isShortBuildMessage := false,
    farEndTransports := 1, state := TState.Established }

/-- A second established outbound tunnel used in concrete examples. -/
def exTunnelB : Tunnel :=
  { config := none, hops := [], isShortBuildMessage := false,
    farEndTransports := 2, state := TState.Established }

/-- A non-established (pending) outbound tunnel used in concrete examples. -/
def exTunnelC : Tunnel :=
  { config := none, hops := [], isShortBuildMessage := false,
    farEndTransports := 3, state := TState.Pending }

/-- Claim C1, counterexample: on the list `[A, B, C]` where `A` and `B` are
established and `C` is not, residue 0 selects `A` while residues 1 and 2 both
select `B`, so the established tunnels are not selected by equally many
residues: the selection is not uniform over the established tunnels. -/
theorem GetNextOutboundTunnel_not_uniform :
    exTunnelA ∈ [exTunnelA, exTunnelB, exTunnelC] ∧
    exTunnelB ∈ [exTunnelA, exTunnelB, exTunnelC] ∧
    exTunnelA.IsEstablished = true ∧ exTunnelB.IsEstablished = true ∧
    countSelecting [exTunnelA, exTunnelB, exTunnelC] exTunnelA = 1 ∧
    countSelecting [exTunnelA, exTunnelB, exTunnelC] exTunnelB = 2 ∧
    ¬ countSelecting [exTunnelA, exTunnelB, exTunnelC] exTunnelA =
      countSelecting [exTunnelA, exTunnelB, exTunnelC] exTunnelB := by
  decide

/-- When every tunnel in the list is established, the selection loop just
indexes the list: starting from counter `i`, target index `ind` with
`i ≤ ind < i + length`, it returns the element at position `ind - i`,
whatever tunnel is currently remembered. -/
theorem selectOutboundLoop_all_established :
    ∀ (ts : List Tunnel) (ind i : Nat) (sel : Option Tunnel),
      (∀ t ∈ ts, t.IsEstablished = true) → i ≤ ind → ind < i + ts.length →
      selectOutboundLoop ts ind i sel = ts[ind - i]? := by
  intro ts
  induction ts with
  | nil => intro ind i sel _ h1 h2; simp at h2; omega
  | cons t rest ih =>
    intro ind i sel hest h1 h2
    have het : t.IsEstablished = true := hest t (List.mem_cons_self t rest)
    by_cases hbr : ind < i + 1
    · have : ind = i := by omega
      subst this
      simp [selectOutboundLoop, het]
    · have hrec : i + 1 ≤ ind := by omega
      have h2r : ind < (i + 1) + rest.length := by
        simp at h2; omega
      have := ih ind (i + 1) (some t)
        (fun u hu => hest u (List.mem_cons_of_mem t hu)) hrec h2r
      simp only [selectOutboundLoop, het, if_pos rfl, ite_true]
      rw [if_neg (by simp; omega)]
      rw [this]
      have : ind - i = (ind - (i + 1)) + 1 := by omega
      rw [this]
      simp

/-- When every tunnel in the list is established, residue `r` selects the
tunnel at position `r`. -/
theorem GetNextOutboundTunnel_all_established (ts : List Tunnel) (r : Nat)
    (hest : ∀ t ∈ ts, t.IsEstablished = true) (hr : r < ts.length) :
    Tunnels.GetNextOutboundTunnel r ts = ts[r]? := by
  unfold Tunnels.GetNextOutboundTunnel
  rw [if_neg (by simp [List.isEmpty_iff]; intro h; subst h; simp at hr)]
  rw [Nat.mod_eq_of_lt hr]
  have := selectOutboundLoop_all_established ts r 0 none hest (Nat.zero_le r)
    (by omega)
  simpa using this

/-- A boolean predicate that holds on exactly one value `k` below `n` selects
a one-element sublist of `range n`. -/
theorem filter_range_length_one (n k : Nat) (p : Nat → Bool) (hk : k < n)
    (hpk : p k = true) (huniq : ∀ r, r < n → p r = true → r = k) :
    ((List.range n).filter p).length = 1 := by
  have hcong : (List.range n).filter p = (List.range n).filter (fun r => r == k) := by
    apply List.filter_congr
    intro r hr
    have hrn : r < n := List.mem_range.mp hr
    by_cases h : p r = true
    · have : r = k := huniq r hrn h
      subst this
      simp [h]
    · have hb : p r = false := by simpa using h
      have hbk : (r == k) = false := by
        apply beq_false_of_ne
        intro he
        subst he
        exact h hpk
      rw [hb, hbk]
  rw [hcong]
  have hcount : ((List.range n).filter (fun r => r == k)).length
      = (List.range n).count k := by
    rw [List.count, List.countP_eq_length_filter]
  rw [hcount]
  exact List.count_eq_one_of_mem (List.nodup_range n) (List.mem_range.mpr hk)

/-- Claim C1, amended: when every tunnel in the outbound list is established
and the list has no duplicates, `Tunnels::GetNextOutboundTunnel` is uniform:
each tunnel is selected by exactly one RNG residue modulo the list size.
(Without the all-established hypothesis the selection is biased: the last
established tunnel absorbs every residue at or past the count of established
tunnels.) -/
theorem GetNextOutboundTunnel_uniform_of_all_established (ts : List Tunnel)
    (hest : ∀ t ∈ ts, t.IsEstablished = true) (hnd : ts.Nodup)
    (t : Tunnel) (ht : t ∈ ts) :
    countSelecting ts t = 1 := by
  obtain ⟨k, hk, hget⟩ := List.getElem_of_mem ht
  unfold countSelecting
  apply filter_range_length_one ts.length k _ hk
  · simp only [decide_eq_true_eq]
    rw [GetNextOutboundTunnel_all_established ts k hest hk]
    simp [List.getElem?_eq_getElem hk, hget]
  · intro r hr hp
    simp only [decide_eq_true_eq] at hp
    rw [GetNextOutboundTunnel_all_established ts r hest hr] at hp
    apply List.getElem?_inj hr hnd
    rw [hp, List.getElem?_eq_getElem hk, hget]

/-- Claim C1, witness for the amended theorem: on a two-element list of
distinct established tunnels, each tunnel is selected by exactly one residue. -/
theorem GetNextOutboundTunnel_uniform_witness :
    countSelecting [exTunnelA, exTunnelB] exTunnelA = 1 :=
  GetNextOutboundTunnel_uniform_of_all_established [exTunnelA, exTunnelB]
    (by decide) (by decide) exTunnelA (by decide)

/-- The modulus of `uint64_t` arithmetic, 2 to the power 64. -/
def U64MOD : Nat := 18446744073709551616

/-- Unsigned 64-bit subtraction `a - b` as `Tunnels::Run` computes
`ts - lastTs`: wraps around for `a < b`.  Faithful for `a, b < U64MOD`. -/
def u64sub (a b : Nat) : Nat := (a + U64MOD - b) % U64MOD

/-- Unsigned 64-bit addition, as in `ts + TUNNEL_MANAGE_INTERVAL`. -/
def u64add (a b : Nat) : Nat := (a + b) % U64MOD

/-- One maintenance comparison of `Tunnels::Run`:
`ts - last >= interval || ts + interval < last` in `uint64_t` arithmetic. -/
def scheduleFires (interval ts last : Nat) : Bool :=
  decide (interval ≤ u64sub ts last) || decide (u64add ts interval < last)

/-- The three schedule timestamps of `Tunnels::Run`:
`lastTs`, `lastPoolsTs` and `lastMemoryPoolTs`. -/
structure RunTimers where
  lastTs : Nat
  lastPoolsTs : Nat
  lastMemoryPoolTs : Nat

/-- Which maintenance tasks one pass of the periodic block of `Tunnels::Run`
performs at timestamp `ts`, and the timer values afterwards. -/
structure MaintenanceOutcome where
  manageTunnels : Bool
  managePools : Bool
  manageMemoryPool : Bool
  timers : RunTimers

/-- The periodic-maintenance block of `Tunnels::Run` (executed when the
transports are online): each of the three schedules fires on its comparison,
and a schedule that fires sets its timer to `ts`. -/
def runMaintenanceTick (ts : Nat) (tm : RunTimers) : MaintenanceOutcome :=
  let f1 := scheduleFires TUNNEL_MANAGE_INTERVAL ts tm.lastTs
  let f2 := scheduleFires TUNNEL_POOLS_MANAGE_INTERVAL ts tm.lastPoolsTs
  let f3 := scheduleFires TUNNEL_MEMORY_POOL_MANAGE_INTERVAL ts tm.lastMemoryPoolTs
  { manageTunnels := f1
    managePools := f2
    manageMemoryPool := f3
    timers :=
      { lastTs := if f1 then ts else tm.lastTs
        lastPoolsTs := if f2 then ts else tm.lastPoolsTs
        lastMemoryPoolTs := if f3 then ts else tm.lastMemoryPoolTs } }

/-- Claim C8, counterexample: at `ts = 99` with all three timers at `100`
(clock jumped back by one second, far less than any interval), the claimed
condition `ts - last ≥ interval ∨ ts + interval < last` (read over the
integers) is false for the 15-second schedule, yet the code fires the task:
the `uint64_t` subtraction wraps around, so any backward jump triggers it. -/
theorem runMaintenanceTick_backward_jump :
    (runMaintenanceTick 99 ⟨100, 100, 100⟩).manageTunnels = true ∧
    ¬ (100 + TUNNEL_MANAGE_INTERVAL ≤ 99 ∨ 99 + TUNNEL_MANAGE_INTERVAL < 100) := by
  decide

/-- For a positive interval and operands in `uint64_t` range (with room for
the additions), the comparison of `Tunnels::Run` fires exactly when the
interval has elapsed or the clock moved backward at all. -/
theorem scheduleFires_iff (interval ts last : Nat) (h0 : 0 < interval)
    (hts : ts < U64MOD) (hlast : last + interval < U64MOD)
    (hadd : ts + interval < U64MOD) :
    scheduleFires interval ts last = true ↔
      (last + interval ≤ ts ∨ ts < last) := by
  have hadd2 : u64add ts interval = ts + interval := by
    unfold u64add
    exact Nat.mod_eq_of_lt hadd
  rcases Nat.lt_or_ge ts last with hlt | hge
  · have hsub : u64sub ts last = ts + U64MOD - last := by
      unfold u64sub
      exact Nat.mod_eq_of_lt (by omega)
    simp only [scheduleFires, hadd2, hsub, Bool.or_eq_true, decide_eq_true_eq]
    omega
  · have hsub : u64sub ts last = ts - last := by
      unfold u64sub
      have he : ts + U64MOD - last = (ts - last) + U64MOD := by omega
      rw [he, Nat.add_mod_right]
      exact Nat.mod_eq_of_lt (by omega)
    simp only [scheduleFires, hadd2, hsub, Bool.or_eq_true, decide_eq_true_eq]
    omega

/-- Claim C8, amended: for each of the three schedules, with timestamps in
`uint64_t` range, the task fires if and only if the interval has elapsed
(`last + interval ≤ ts`) or the clock went backward at all (`ts < last`) —
the `uint64_t` subtraction wraps on any backward jump, not only past the
interval — and the schedule's timer is set to `ts` exactly when it fired. -/
theorem runMaintenanceTick_fires_iff (ts : Nat) (tm : RunTimers)
    (hts : ts < U64MOD)
    (ha1 : ts + TUNNEL_MANAGE_INTERVAL < U64MOD)
    (ha2 : ts + TUNNEL_POOLS_MANAGE_INTERVAL < U64MOD)
    (ha3 : ts + TUNNEL_MEMORY_POOL_MANAGE_INTERVAL < U64MOD)
    (hb1 : tm.lastTs + TUNNEL_MANAGE_INTERVAL < U64MOD)
    (hb2 : tm.lastPoolsTs + TUNNEL_POOLS_MANAGE_INTERVAL < U64MOD)
    (hb3 : tm.lastMemoryPoolTs + TUNNEL_MEMORY_POOL_MANAGE_INTERVAL < U64MOD) :
    ((runMaintenanceTick ts tm).manageTunnels = true ↔
      (tm.lastTs + TUNNEL_MANAGE_INTERVAL ≤ ts ∨ ts < tm.lastTs)) ∧
    ((runMaintenanceTick ts tm).managePools = true ↔
      (tm.lastPoolsTs + TUNNEL_POOLS_MANAGE_INTERVAL ≤ ts ∨ ts < tm.lastPoolsTs)) ∧
    ((runMaintenanceTick ts tm).manageMemoryPool = true ↔
      (tm.lastMemoryPoolTs + TUNNEL_MEMORY_POOL_MANAGE_INTERVAL ≤ ts ∨
        ts < tm.lastMemoryPoolTs)) ∧
    (runMaintenanceTick ts tm).timers.lastTs =
      (if (runMaintenanceTick ts tm).manageTunnels then ts else tm.lastTs) ∧
    (runMaintenanceTick ts tm).timers.lastPoolsTs =
      (if (runMaintenanceTick ts tm).managePools then ts else tm.lastPoolsTs) ∧
    (runMaintenanceTick ts tm).timers.lastMemoryPoolTs =
      (if (runMaintenanceTick ts tm).manageMemoryPool then ts
       else tm.lastMemoryPoolTs) := by
  refine ⟨?_, ?_, ?_, rfl, rfl, rfl⟩
  · exact scheduleFires_iff TUNNEL_MANAGE_INTERVAL ts tm.lastTs (by decide)
      hts hb1 ha1
  · exact scheduleFires_iff TUNNEL_POOLS_MANAGE_INTERVAL ts tm.lastPoolsTs
      (by decide) hts hb2 ha2
  · exact scheduleFires_iff TUNNEL_MEMORY_POOL_MANAGE_INTERVAL ts
      tm.lastMemoryPoolTs (by decide) hts hb3 ha3

/-- Claim C8, witness for the amended theorem at `ts = 1000` and timers
`(985, 996, 900)`: the 15-second schedule fires (and its timer becomes 1000),
the 5-second and 120-second schedules do not. -/
theorem runMaintenanceTick_fires_iff_witness :
    ((runMaintenanceTick 1000 ⟨985, 996, 900⟩).manageTunnels = true ↔
      (985 + TUNNEL_MANAGE_INTERVAL ≤ 1000 ∨ 1000 < 985)) ∧
    ((runMaintenanceTick 1000 ⟨985, 996, 900⟩).managePools = true ↔
      (996 + TUNNEL_POOLS_MANAGE_INTERVAL ≤ 1000 ∨ 1000 < 996)) ∧
    ((runMaintenanceTick 1000 ⟨985, 996, 900⟩).manageMemoryPool = true ↔
      (900 + TUNNEL_MEMORY_POOL_MANAGE_INTERVAL ≤ 1000 ∨ 1000 < 900)) ∧
    (runMaintenanceTick 1000 ⟨985, 996, 900⟩).timers.lastTs =
      (if (runMaintenanceTick 1000 ⟨985, 996, 900⟩).manageTunnels then 1000
       else 985) ∧
    (runMaintenanceTick 1000 ⟨985, 996, 900⟩).timers.lastPoolsTs =
      (if (runMaintenanceTick 1000 ⟨985, 996, 900⟩).managePools then 1000
       else 996) ∧
    (runMaintenanceTick 1000 ⟨985, 996, 900⟩).timers.lastMemoryPoolTs =
      (if (runMaintenanceTick 1000 ⟨985, 996, 900⟩).manageMemoryPool then 1000
       else 900) :=
  runMaintenanceTick_fires_iff 1000 ⟨985, 996, 900⟩ (by decide) (by decide)
    (by decide) (by decide) (by decide) (by decide) (by decide)

/-- Peer-profile events emitted by `Tunnel.cpp` through
`i2p::data::UpdateRouterProfile`. -/
inductive PEvent where
  | tunnelBuildResponse (ident : Nat) (code : Nat)
  | tunnelNonReplied (ident : Nat)
deriving DecidableEq

/-- The cryptographic collaborators of `Tunnel::HandleTunnelBuildResponse`,
declared on `TunnelHopConfig` outside the sources and kept abstract here:
`DecryptBuildResponseRecord` (may fail), `DecryptRecord` (applies the hop's
layer transform to the record at a slot index) and `GetRetCode`.  Each takes
the records region of the message (`msg + 1`). -/
structure CryptoOps where
  decryptResp : TunnelHopConfig → List Nat → Option (List Nat)
  decryptRec : TunnelHopConfig → List Nat → Nat → List Nat
  getRetCode : TunnelHopConfig → List Nat → Nat

/-- One iteration of the outer decryption loop of
`Tunnel::HandleTunnelBuildResponse`: decrypt the current hop's own reply slot
(failing if its index is out of `[0, num)` or the record does not verify),
then apply this hop's layer transform to the slot of every hop before it
(out-of-range indices there are only skipped). -/
def decryptOwnAndPrev (ops : CryptoOps) (num : Nat) (buf : List Nat)
    (hop : TunnelHopConfig) (prevs : List TunnelHopConfig) :
    Option (List Nat) :=
  if 0 ≤ hop.recordIndex ∧ hop.recordIndex < (num : Int) then
    match ops.decryptResp hop buf with
    | none => none
    | some buf1 =>
      some (prevs.foldl (fun b h1 =>
        if 0 ≤ h1.recordIndex ∧ h1.recordIndex < (num : Int) then
          ops.decryptRec hop b h1.recordIndex.toNat
        else b) buf1)
  else none

/-- The outer decryption loop of `Tunnel::HandleTunnelBuildResponse`, walking
the hop chain from the last hop to the first: the argument list is the hop
chain reversed, so the tail of each cons cell is exactly the `prev` chain of
its head. -/
def decryptResponseRecords (ops : CryptoOps) (num : Nat) :
    List TunnelHopConfig → List Nat → Option (List Nat)
  | [], buf => some buf
  | hop :: prevs, buf =>
    match decryptOwnAndPrev ops num buf hop prevs with
    | none => none
    | some buf1 => decryptResponseRecords ops num prevs buf1

/-- The return-code pass of `Tunnel::HandleTunnelBuildResponse`, walking the
hop chain first to last: reads each hop's return code, emits a
`tunnelBuildResponse` profile event when the hop has an identity, clears the
`established` flag on any non-zero code, and counts the hops. -/
def readRetCodes (ops : CryptoOps) (buf : List Nat) :
    List TunnelHopConfig → Bool × List PEvent × Nat
  | [] => (true, [], 0)
  | hop :: rest =>
    let ret := ops.getRetCode hop buf
    let evs := match hop.ident with
      | some idh => [PEvent.tunnelBuildResponse idh ret]
      | none => []
    let r := readRetCodes ops buf rest
    ((ret == 0) && r.1, evs ++ r.2.1, r.2.2 + 1)

/-- Function `Tunnel::HandleTunnelBuildResponse`: header validation, the backward
decryption pass, the forward return-code pass, and on acceptance the
materialisation of `m_Hops` in reverse traversal order from the config's
layer/iv keys, capture of the short-build flag and far-end transports,
dropping of the config and the transition to `Established`.  Returns the
`bool` result, the updated tunnel and the emitted profile events.  (The
source reads `m_Config` unconditionally; a pending tunnel always carries a
config, and a missing config is modelled as rejection.) -/
def Tunnel.HandleTunnelBuildResponse (ops : CryptoOps) (t : Tunnel)
    (msg : List Nat) (len : Nat) : Bool × Tunnel × List PEvent :=
  let num := msg.headD 0
  if MAX_NUM_RECORDS < num then (false, t, [])
  else
    match t.config with
    | none => (false, t, [])
    | some cfg =>
      if len < num * cfg.recordSize + 1 then (false, t, [])
      else
        match decryptResponseRecords ops num cfg.hops.reverse (msg.drop 1) with
        | none => (false, t, [])
        | some buf =>
          let r := readRetCodes ops buf cfg.hops
          if r.1 then
            (true,
              { config := none
                hops := cfg.hops.reverse.map (fun h =>
                  { ident := h.ident, layerKey := h.layerKey, ivKey := h.ivKey })
                isShortBuildMessage := cfg.isShort
                farEndTransports := cfg.farEndTransports
                state := TState.Established },
              r.2.1)
          else (false, t, r.2.1)

/-- The return-code pass in closed form: the accept flag collects all codes
being zero, the events are one `tunnelBuildResponse` per hop with an
identity, and the count is the chain length. -/
theorem readRetCodes_spec (ops : CryptoOps) (buf : List Nat)
    (hops : List TunnelHopConfig) :
    readRetCodes ops buf hops =
      (hops.all (fun h => ops.getRetCode h buf == 0),
       hops.filterMap (fun h => h.ident.map
         (fun idh => PEvent.tunnelBuildResponse idh (ops.getRetCode h buf))),
       hops.length) := by
  induction hops with
  | nil => rfl
  | cons h rest ih =>
    simp only [readRetCodes, ih, List.all_cons, List.filterMap_cons,
      List.length_cons]
    cases h.ident <;> simp [Option.map]

/-- Claim C5: `Tunnel::HandleTunnelBuildResponse` returns false and leaves
the tunnel untouched (in particular it does not become established) whenever
the record count `num = msg[0]` exceeds `MAX_NUM_RECORDS` or the buffer
length is below `num * recordSize + 1`. -/
theorem HandleTunnelBuildResponse_rejects_malformed (ops : CryptoOps)
    (t : Tunnel) (msg : List Nat) (len : Nat) (cfg : TunnelConfig)
    (hcfg : t.config = some cfg)
    (h : MAX_NUM_RECORDS < msg.headD 0 ∨
      len < msg.headD 0 * cfg.recordSize + 1) :
    (t.HandleTunnelBuildResponse ops msg len).1 = false ∧
    (t.HandleTunnelBuildResponse ops msg len).2.1 = t := by
  by_cases hnum : MAX_NUM_RECORDS < msg.headD 0
  · simp only [Tunnel.HandleTunnelBuildResponse, if_pos hnum]
    exact ⟨trivial, trivial⟩
  · have hlen : len < msg.headD 0 * cfg.recordSize + 1 := h.resolve_left hnum
    simp only [Tunnel.HandleTunnelBuildResponse, if_neg hnum, hcfg, if_pos hlen]
    exact ⟨trivial, trivial⟩

/-- A hop configuration used in concrete examples. -/
def exHop : TunnelHopConfig :=
  { ident := some 7, layerKey := 11, ivKey := 12, recordIndex := 0 }

/-- A one-hop short-build tunnel configuration used in concrete examples. -/
def exCfg : TunnelConfig :=
  { hops := [exHop], isShort := true, recordSize := 1, farEndTransports := 5 }

/-- A pending tunnel (reply just received) used in concrete examples. -/
def exPendingTunnel : Tunnel :=
  { config := some exCfg, hops := [], isShortBuildMessage := false,
    farEndTransports := 0, state := TState.BuildReplyReceived }

/-- Trivial crypto collaborators used in concrete examples: record
decryption succeeds and leaves the buffer unchanged, and every return code
is zero. -/
def exOps : CryptoOps :=
  { decryptResp := fun _ b => some b
    decryptRec := fun _ b _ => b
    getRetCode := fun _ _ => 0 }

/-- Claim C5, witness: a response declaring 9 records is rejected and the
tunnel is unchanged. -/
theorem HandleTunnelBuildResponse_rejects_malformed_witness :
    (exPendingTunnel.HandleTunnelBuildResponse exOps [9] 2).1 = false ∧
    (exPendingTunnel.HandleTunnelBuildResponse exOps [9] 2).2.1 =
      exPendingTunnel :=
  HandleTunnelBuildResponse_rejects_malformed exOps exPendingTunnel [9] 2
    exCfg rfl (Or.inl (by decide))

/-- Claim C2: on a well-formed response whose own-slot decryptions all
succeed, the result is acceptance exactly when every hop's return code is
zero, the tunnel ends in state `Established` exactly on acceptance, and the
emitted profile events are exactly one `tunnelBuildResponse` per hop with an
identity, carrying that hop's observed code, in hop order. -/
theorem HandleTunnelBuildResponse_established_iff (ops : CryptoOps)
    (t : Tunnel) (msg : List Nat) (len : Nat) (cfg : TunnelConfig)
    (buf : List Nat)
    (hcfg : t.config = some cfg)
    (hstate : t.state = TState.BuildReplyReceived)
    (hnum : ¬ MAX_NUM_RECORDS < msg.headD 0)
    (hlen : ¬ len < msg.headD 0 * cfg.recordSize + 1)
    (hdec : decryptResponseRecords ops (msg.headD 0) cfg.hops.reverse
      (msg.drop 1) = some buf) :
    ((t.HandleTunnelBuildResponse ops msg len).1 = true ↔
      ∀ h ∈ cfg.hops, ops.getRetCode h buf = 0) ∧
    ((t.HandleTunnelBuildResponse ops msg len).2.1.state =
        TState.Established ↔
      (t.HandleTunnelBuildResponse ops msg len).1 = true) ∧
    (t.HandleTunnelBuildResponse ops msg len).2.2 =
      cfg.hops.filterMap (fun h => h.ident.map
        (fun idh => PEvent.tunnelBuildResponse idh (ops.getRetCode h buf))) := by
  simp only [Tunnel.HandleTunnelBuildResponse, hcfg, if_neg hnum, if_neg hlen,
    hdec, readRetCodes_spec, List.all_eq_true, beq_iff_eq]
  by_cases hall : ∀ h ∈ cfg.hops, ops.getRetCode h buf = 0
  · rw [if_pos hall]
    exact ⟨by simpa using hall, by simp, rfl⟩
  · rw [if_neg hall]
    refine ⟨by simpa using hall, ?_, rfl⟩
    rw [hstate]
    simp

/-- Claim C2, witness: a one-hop response with all-zero return codes is
accepted, establishes the tunnel and emits one `tunnelBuildResponse 0` for
the hop's identity. -/
theorem HandleTunnelBuildResponse_established_iff_witness :
    ((exPendingTunnel.HandleTunnelBuildResponse exOps [1, 0] 2).1 = true ↔
      ∀ h ∈ exCfg.hops, exOps.getRetCode h [0] = 0) ∧
    ((exPendingTunnel.HandleTunnelBuildResponse exOps [1, 0] 2).2.1.state =
        TState.Established ↔
      (exPendingTunnel.HandleTunnelBuildResponse exOps [1, 0] 2).1 = true) ∧
    (exPendingTunnel.HandleTunnelBuildResponse exOps [1, 0] 2).2.2 =
      exCfg.hops.filterMap (fun h => h.ident.map
        (fun idh => PEvent.tunnelBuildResponse idh (exOps.getRetCode h [0]))) :=
  HandleTunnelBuildResponse_established_iff exOps exPendingTunnel [1, 0] 2
    exCfg [0] rfl rfl (by decide) (by decide) (by decide)

/-- Claim C6: whenever `Tunnel::HandleTunnelBuildResponse` accepts, the
resulting tunnel carries the hop chain reversed (endpoint first, each entry
copying that hop's identity and layer/iv keys), so the hop list length equals
the build configuration's hop count; the short-build flag and the far-end
transport hint are captured from the config; the config is dropped; and the
state is `Established`. -/
theorem HandleTunnelBuildResponse_establishes_tunnel (ops : CryptoOps)
    (t : Tunnel) (msg : List Nat) (len : Nat) (cfg : TunnelConfig)
    (hcfg : t.config = some cfg)
    (hacc : (t.HandleTunnelBuildResponse ops msg len).1 = true) :
    (t.HandleTunnelBuildResponse ops msg len).2.1.hops =
      cfg.hops.reverse.map (fun h =>
        { ident := h.ident, layerKey := h.layerKey, ivKey := h.ivKey }) ∧
    (t.HandleTunnelBuildResponse ops msg len).2.1.hops.length =
      cfg.hops.length ∧
    (t.HandleTunnelBuildResponse ops msg len).2.1.isShortBuildMessage =
      cfg.isShort ∧
    (t.HandleTunnelBuildResponse ops msg len).2.1.farEndTransports =
      cfg.farEndTransports ∧
    (t.HandleTunnelBuildResponse ops msg len).2.1.config = none ∧
    (t.HandleTunnelBuildResponse ops msg len).2.1.state =
      TState.Established := by
  simp only [Tunnel.HandleTunnelBuildResponse, hcfg] at hacc ⊢
  by_cases hnum : MAX_NUM_RECORDS < msg.headD 0
  · rw [if_pos hnum] at hacc
    exact absurd hacc (by simp)
  · rw [if_neg hnum] at hacc ⊢
    by_cases hlen : len < msg.headD 0 * cfg.recordSize + 1
    · rw [if_pos hlen] at hacc
      exact absurd hacc (by simp)
    · rw [if_neg hlen] at hacc ⊢
      cases hd : decryptResponseRecords ops (msg.headD 0) cfg.hops.reverse
          (msg.drop 1) with
      | none =>
        rw [hd] at hacc
        exact absurd hacc (by simp)
      | some buf =>
        rw [hd] at hacc
        simp only [] at hacc ⊢
        by_cases hest : (readRetCodes ops buf cfg.hops).1 = true
        · rw [if_pos hest]
          refine ⟨rfl, ?_, rfl, rfl, rfl, rfl⟩
          simp
        · rw [if_neg hest] at hacc
          exact absurd hacc (by simp)

/-- Claim C6, witness: the accepted one-hop response yields a tunnel with the
single hop's identity and keys, short flag and far-end hint from the config,
no config, and state `Established`. -/
theorem HandleTunnelBuildResponse_establishes_tunnel_witness :
    (exPendingTunnel.HandleTunnelBuildResponse exOps [1, 0] 2).2.1.hops =
      exCfg.hops.reverse.map (fun h =>
        { ident := h.ident, layerKey := h.layerKey, ivKey := h.ivKey }) ∧
    (exPendingTunnel.HandleTunnelBuildResponse exOps [1, 0] 2).2.1.hops.length =
      exCfg.hops.length ∧
    (exPendingTunnel.HandleTunnelBuildResponse
      exOps [1, 0] 2).2.1.isShortBuildMessage = exCfg.isShort ∧
    (exPendingTunnel.HandleTunnelBuildResponse
      exOps [1, 0] 2).2.1.farEndTransports = exCfg.farEndTransports ∧
    (exPendingTunnel.HandleTunnelBuildResponse exOps [1, 0] 2).2.1.config =
      none ∧
    (exPendingTunnel.HandleTunnelBuildResponse exOps [1, 0] 2).2.1.state =
      TState.Established :=
  HandleTunnelBuildResponse_establishes_tunnel exOps exPendingTunnel [1, 0] 2
    exCfg rfl (by decide)

/-- The observable outcome of `Tunnel::Build`: the record count written to
the first payload byte, the message length after the payload grows, the
record slot index and embedded reply-message id given to each real hop in
traversal order, and the `(slot, bytes)` pairs written into the fake
records. -/
structure BuildOutcome where
  numRecords : Nat
  firstPayloadByte : Nat
  msgLen : Nat
  hopRecordIndices : List Nat
  hopReplyMsgIDs : List Nat
  fakeRecords : List (Nat × List Nat)
deriving DecidableEq

/-- Function `Tunnel::Build`: choose the record count from the hop count, grow the
message by `numRecords * recordSize + 1` bytes with the count in the first
payload byte, hand out the shuffled slot indices `recordIndicies[i]` to the
real hops in traversal order (the last hop embeds the caller's
`replyMsgID`, every other hop a fresh random id, modelled as the stream
`randMsgIDs`), and fill each remaining slot `recordIndicies[i]` for
`i ∈ [numHops, numRecords)` with RNG bytes (modelled as the stream
`randBytes`).  The per-record serialisation (`CreateBuildRequestRecord`) and
the pre-encryption passes live outside the sources and do not affect these
observables. -/
def Tunnel.Build (cfg : TunnelConfig) (initialLen replyMsgID : Nat)
    (recordIndicies : List Nat) (randMsgIDs : List Nat)
    (randBytes : Nat → List Nat) : BuildOutcome :=
  let numHops := cfg.hops.length
  let numRecords :=
    if numHops ≤ STANDARD_NUM_RECORDS then STANDARD_NUM_RECORDS
    else MAX_NUM_RECORDS
  { numRecords := numRecords
    firstPayloadByte := numRecords
    msgLen := initialLen + numRecords * cfg.recordSize + 1
    hopRecordIndices :=
      (List.range numHops).map (fun i => recordIndicies.getD i 0)
    hopReplyMsgIDs :=
      (List.range numHops).map (fun i =>
        if i + 1 < numHops then randMsgIDs.getD i 0 else replyMsgID)
    fakeRecords :=
      ((List.range numRecords).drop numHops).map
        (fun i => (recordIndicies.getD i 0, randBytes i)) }

/-- Indexing a list over an initial segment of the naturals is taking a
prefix. -/
theorem map_getD_range_take (l : List Nat) (d : Nat) :
    ∀ n, n ≤ l.length → (List.range n).map (fun i => l.getD i d) = l.take n := by
  intro n
  induction n with
  | zero => intro _; simp
  | succ n ih =>
    intro h
    have hn : n < l.length := by omega
    rw [List.range_succ, List.map_append, ih (by omega), List.take_succ]
    simp [List.getD_eq_getElem?_getD, List.getElem?_eq_getElem hn]

/-- Indexing a list over all of `range length` reproduces the list. -/
theorem map_getD_range_self (l : List Nat) (d : Nat) :
    (List.range l.length).map (fun i => l.getD i d) = l := by
  rw [map_getD_range_take l d l.length (Nat.le_refl _)]
  exact List.take_length l

/-- Claim C3: for a build over `H = cfg.hops.length` hops (at most
`MAX_NUM_RECORDS`, beyond which the source would index the shuffled vector
out of bounds) with `recordIndicies` the shuffled permutation of
`[0, numRecords)`: the record count is `STANDARD_NUM_RECORDS` for
`H ≤ STANDARD_NUM_RECORDS` and `MAX_NUM_RECORDS` otherwise; the message
grows by exactly `1 + numRecords * recordSize` bytes; the first payload byte
is the record count; the real hops receive the first `H` entries of the
permutation — pairwise distinct slots below the record count; and the
`numRecords - H` fake records occupy exactly the remaining permutation
entries and carry exactly the RNG byte stream, the real and fake slots
together covering every slot once. -/
theorem Build_record_layout (cfg : TunnelConfig)
    (initialLen replyMsgID : Nat) (recordIndicies randMsgIDs : List Nat)
    (randBytes : Nat → List Nat) (b : BuildOutcome)
    (hb : b = Tunnel.Build cfg initialLen replyMsgID recordIndicies
      randMsgIDs randBytes)
    (hhops : cfg.hops.length ≤ MAX_NUM_RECORDS)
    (hperm : recordIndicies.Perm (List.range b.numRecords)) :
    b.numRecords = (if cfg.hops.length ≤ STANDARD_NUM_RECORDS
      then STANDARD_NUM_RECORDS else MAX_NUM_RECORDS) ∧
    b.msgLen = initialLen + 1 + b.numRecords * cfg.recordSize ∧
    b.firstPayloadByte = b.numRecords ∧
    b.hopRecordIndices = recordIndicies.take cfg.hops.length ∧
    b.hopRecordIndices.length = cfg.hops.length ∧
    b.hopRecordIndices.Nodup ∧
    (∀ x ∈ b.hopRecordIndices, x < b.numRecords) ∧
    b.fakeRecords.length = b.numRecords - cfg.hops.length ∧
    b.fakeRecords.map Prod.fst = recordIndicies.drop cfg.hops.length ∧
    b.fakeRecords.map Prod.snd =
      ((List.range b.numRecords).drop cfg.hops.length).map randBytes ∧
    (b.hopRecordIndices ++ b.fakeRecords.map Prod.fst).Perm
      (List.range b.numRecords) := by
  subst hb
  simp only [Tunnel.Build] at hperm ⊢
  have hlen : recordIndicies.length =
      (if cfg.hops.length ≤ STANDARD_NUM_RECORDS then STANDARD_NUM_RECORDS
       else MAX_NUM_RECORDS) := by
    have := hperm.length_eq
    simpa using this
  have hHR : cfg.hops.length ≤ recordIndicies.length := by
    rw [hlen]
    by_cases hc : cfg.hops.length ≤ STANDARD_NUM_RECORDS
    · rw [if_pos hc]; exact hc
    · rw [if_neg hc]; exact hhops
  have hnodup : recordIndicies.Nodup :=
    hperm.nodup_iff.mpr (List.nodup_range _)
  have htake : (List.range cfg.hops.length).map
      (fun i => recordIndicies.getD i 0) =
      recordIndicies.take cfg.hops.length :=
    map_getD_range_take recordIndicies 0 cfg.hops.length hHR
  have hself : (List.range recordIndicies.length).map
      (fun i => recordIndicies.getD i 0) = recordIndicies :=
    map_getD_range_self recordIndicies 0
  have hfakefst : (((List.range (if cfg.hops.length ≤ STANDARD_NUM_RECORDS
        then STANDARD_NUM_RECORDS else MAX_NUM_RECORDS)).drop
        cfg.hops.length).map
      (fun i => (recordIndicies.getD i 0, randBytes i))).map Prod.fst =
      recordIndicies.drop cfg.hops.length := by
    rw [List.map_map]
    have hcomp : (Prod.fst ∘ fun i => (recordIndicies.getD i 0, randBytes i)) =
        fun i => recordIndicies.getD i 0 := rfl
    rw [hcomp, ← hlen, List.map_drop, hself]
  refine ⟨trivial, by omega, trivial, htake, ?_, ?_, ?_, ?_, hfakefst, ?_, ?_⟩
  · rw [htake, List.length_take]
    omega
  · rw [htake]
    exact (List.take_sublist _ _).nodup hnodup
  · intro x hx
    rw [htake] at hx
    have hx2 : x ∈ recordIndicies := (List.take_sublist _ _).mem hx
    have := hperm.mem_iff.mp hx2
    simpa using this
  · simp
  · rw [List.map_map]
    have hcomp : (Prod.snd ∘ fun i => (recordIndicies.getD i 0, randBytes i)) =
        randBytes := rfl
    rw [hcomp]
  · rw [htake, hfakefst, List.take_append_drop]
    exact hperm

/-- A second hop configuration used in concrete examples. -/
def exHop2 : TunnelHopConfig :=
  { ident := some 8, layerKey := 21, ivKey := 22, recordIndex := 1 }

/-- A third hop configuration (without identity) used in concrete examples. -/
def exHop3 : TunnelHopConfig :=
  { ident := none, layerKey := 31, ivKey := 32, recordIndex := 2 }

/-- A three-hop tunnel configuration used in concrete examples. -/
def exCfg3 : TunnelConfig :=
  { hops := [exHop, exHop2, exHop3], isShort := true, recordSize := 218,
    farEndTransports := 0 }

/-- Claim C3, witness: a three-hop build with permutation `[2, 0, 3, 1]`
uses 4 records, grows the message by `1 + 4 * 218` bytes, stores 4 in the
first payload byte, gives the hops slots `[2, 0, 3]`, and fills slot 1 (the
remaining permutation entry) with the RNG bytes. -/
theorem Build_record_layout_witness :
    (Tunnel.Build exCfg3 20 999 [2, 0, 3, 1] [100, 101, 102]
      (fun i => [i])).numRecords =
      (if exCfg3.hops.length ≤ STANDARD_NUM_RECORDS
       then STANDARD_NUM_RECORDS else MAX_NUM_RECORDS) ∧
    (Tunnel.Build exCfg3 20 999 [2, 0, 3, 1] [100, 101, 102]
      (fun i => [i])).msgLen = 20 + 1 +
      (Tunnel.Build exCfg3 20 999 [2, 0, 3, 1] [100, 101, 102]
        (fun i => [i])).numRecords * exCfg3.recordSize ∧
    (Tunnel.Build exCfg3 20 999 [2, 0, 3, 1] [100, 101, 102]
      (fun i => [i])).firstPayloadByte =
      (Tunnel.Build exCfg3 20 999 [2, 0, 3, 1] [100, 101, 102]
        (fun i => [i])).numRecords ∧
    (Tunnel.Build exCfg3 20 999 [2, 0, 3, 1] [100, 101, 102]
      (fun i => [i])).hopRecordIndices =
      ([2, 0, 3, 1] : List Nat).take exCfg3.hops.length ∧
    (Tunnel.Build exCfg3 20 999 [2, 0, 3, 1] [100, 101, 102]
      (fun i => [i])).hopRecordIndices.length = exCfg3.hops.length ∧
    (Tunnel.Build exCfg3 20 999 [2, 0, 3, 1] [100, 101, 102]
      (fun i => [i])).hopRecordIndices.Nodup ∧
    (∀ x ∈ (Tunnel.Build exCfg3 20 999 [2, 0, 3, 1] [100, 101, 102]
      (fun i => [i])).hopRecordIndices,
      x < (Tunnel.Build exCfg3 20 999 [2, 0, 3, 1] [100, 101, 102]
        (fun i => [i])).numRecords) ∧
    (Tunnel.Build exCfg3 20 999 [2, 0, 3, 1] [100, 101, 102]
      (fun i => [i])).fakeRecords.length =
      (Tunnel.Build exCfg3 20 999 [2, 0, 3, 1] [100, 101, 102]
        (fun i => [i])).numRecords - exCfg3.hops.length ∧
    (Tunnel.Build exCfg3 20 999 [2, 0, 3, 1] [100, 101, 102]
      (fun i => [i])).fakeRecords.map Prod.fst =
      ([2, 0, 3, 1] : List Nat).drop exCfg3.hops.length ∧
    (Tunnel.Build exCfg3 20 999 [2, 0, 3, 1] [100, 101, 102]
      (fun i => [i])).fakeRecords.map Prod.snd =
      ((List.range (Tunnel.Build exCfg3 20 999 [2, 0, 3, 1] [100, 101, 102]
        (fun i => [i])).numRecords).drop exCfg3.hops.length).map
        (fun i => [i]) ∧
    ((Tunnel.Build exCfg3 20 999 [2, 0, 3, 1] [100, 101, 102]
      (fun i => [i])).hopRecordIndices ++
      (Tunnel.Build exCfg3 20 999 [2, 0, 3, 1] [100, 101, 102]
        (fun i => [i])).fakeRecords.map Prod.fst).Perm
      (List.range (Tunnel.Build exCfg3 20 999 [2, 0, 3, 1] [100, 101, 102]
        (fun i => [i])).numRecords) :=
  Build_record_layout exCfg3 20 999 [2, 0, 3, 1] [100, 101, 102]
    (fun i => [i]) _ rfl (by decide) (by decide)

/-- Indexing a map over `range n` below the bound evaluates the function. -/
theorem getD_map_range (f : Nat → Nat) (n i : Nat) (d : Nat) (h : i < n) :
    ((List.range n).map f).getD i d = f i := by
  rw [List.getD_eq_getElem?_getD]
  simp [List.getElem?_range h]

/-- Claim C7: `Tunnel::Build` embeds the caller-supplied reply message id in
the last hop's record only; every hop with a successor gets the next fresh
random 32-bit id from the RNG stream instead. -/
theorem Build_reply_msg_ids (cfg : TunnelConfig) (initialLen replyMsgID : Nat)
    (recordIndicies randMsgIDs : List Nat) (randBytes : Nat → List Nat)
    (b : BuildOutcome)
    (hb : b = Tunnel.Build cfg initialLen replyMsgID recordIndicies
      randMsgIDs randBytes)
    (hpos : 0 < cfg.hops.length) :
    b.hopReplyMsgIDs.length = cfg.hops.length ∧
    b.hopReplyMsgIDs.getD (cfg.hops.length - 1) 0 = replyMsgID ∧
    (∀ i, i + 1 < cfg.hops.length →
      b.hopReplyMsgIDs.getD i 0 = randMsgIDs.getD i 0) := by
  subst hb
  refine ⟨by simp [Tunnel.Build], ?_, ?_⟩
  · show ((List.range cfg.hops.length).map (fun i =>
      if i + 1 < cfg.hops.length then randMsgIDs.getD i 0
      else replyMsgID)).getD (cfg.hops.length - 1) 0 = replyMsgID
    rw [getD_map_range _ _ _ _ (by omega)]
    rw [if_neg (by omega)]
  · intro i hi
    show ((List.range cfg.hops.length).map (fun i =>
      if i + 1 < cfg.hops.length then randMsgIDs.getD i 0
      else replyMsgID)).getD i 0 = randMsgIDs.getD i 0
    rw [getD_map_range _ _ _ _ (by omega)]
    rw [if_pos hi]

/-- Claim C7, witness: in the three-hop build, the first two hops embed the
fresh random ids 100 and 101 while the last hop embeds the caller's 999. -/
theorem Build_reply_msg_ids_witness :
    (Tunnel.Build exCfg3 20 999 [2, 0, 3, 1] [100, 101, 102]
      (fun i => [i])).hopReplyMsgIDs.length = exCfg3.hops.length ∧
    (Tunnel.Build exCfg3 20 999 [2, 0, 3, 1] [100, 101, 102]
      (fun i => [i])).hopReplyMsgIDs.getD (exCfg3.hops.length - 1) 0 = 999 ∧
    (∀ i, i + 1 < exCfg3.hops.length →
      (Tunnel.Build exCfg3 20 999 [2, 0, 3, 1] [100, 101, 102]
        (fun i => [i])).hopReplyMsgIDs.getD i 0 =
      ([100, 101, 102] : List Nat).getD i 0) :=
  Build_reply_msg_ids exCfg3 20 999 [2, 0, 3, 1] [100, 101, 102]
    (fun i => [i]) _ rfl (by decide)

/-- A pending tunnel as seen by the registry sweeps: creation timestamp,
state, and the build configuration (`GetTunnelConfig ()`, null once the
tunnel is established). -/
structure PendingTunnel where
  creationTime : Nat
  state : TState
  config : Option TunnelConfig
deriving DecidableEq

/-- The timeout comparison of `Tunnels::ManagePendingTunnels`:
`ts > createdAt + timeout || ts + timeout < createdAt` (the clock-jump
guard).  The timeout is `TUNNEL_CREATION_TIMEOUT`, whose value lives in
`Tunnel.h` outside the sources; everything here is parametric in it. -/
def pendingTimedOut (timeout ts : Nat) (t : PendingTunnel) : Bool :=
  decide (t.creationTime + timeout < ts) ||
  decide (ts + timeout < t.creationTime)

/-- The profile events a timed-out pending tunnel produces: one
`TunnelNonReplied` per hop of its config that has an identity. -/
def nonRepliedEvents (t : PendingTunnel) : List PEvent :=
  match t.config with
  | some cfg => cfg.hops.filterMap (fun h => h.ident.map PEvent.tunnelNonReplied)
  | none => []

/-- Function `Tunnels::ManagePendingTunnels` over one reply-id map: walk the entries;
a `Pending` entry past the timeout is erased, emits its `tunnelNonReplied`
events and bumps the failure counter; a `BuildFailed` entry is erased and
bumps the failure counter; a `BuildReplyReceived` entry is kept; any other
state is erased as a success.  Returns the remaining map, the success and
failure counters, and the events emitted, in iteration order. -/
def Tunnels.ManagePendingTunnels (timeout ts : Nat) :
    List (Nat × PendingTunnel) → Nat → Nat →
    List (Nat × PendingTunnel) × Nat × Nat × List PEvent
  | [], succ, fail => ([], succ, fail, [])
  | (rid, t) :: rest, succ, fail =>
    match t.state with
    | TState.Pending =>
      if pendingTimedOut timeout ts t then
        let r := Tunnels.ManagePendingTunnels timeout ts rest succ (fail + 1)
        (r.1, r.2.1, r.2.2.1, nonRepliedEvents t ++ r.2.2.2)
      else
        let r := Tunnels.ManagePendingTunnels timeout ts rest succ fail
        ((rid, t) :: r.1, r.2)
    | TState.BuildFailed =>
      Tunnels.ManagePendingTunnels timeout ts rest succ (fail + 1)
    | TState.BuildReplyReceived =>
      let r := Tunnels.ManagePendingTunnels timeout ts rest succ fail
      ((rid, t) :: r.1, r.2)
    | _ =>
      Tunnels.ManagePendingTunnels timeout ts rest (succ + 1) fail

/-- Whether the pending sweep keeps an entry: a `Pending` tunnel within the
timeout, or a `BuildReplyReceived` tunnel. -/
def keptInPending (timeout ts : Nat) (t : PendingTunnel) : Bool :=
  match t.state with
  | TState.Pending => !pendingTimedOut timeout ts t
  | TState.BuildReplyReceived => true
  | _ => false

/-- Whether an entry is a timed-out pending tunnel. -/
def isTimedOutPending (timeout ts : Nat) (t : PendingTunnel) : Bool :=
  (t.state == TState.Pending) && pendingTimedOut timeout ts t

/-- Whether the pending sweep counts an entry as a success: any state other
than `Pending`, `BuildFailed` and `BuildReplyReceived` (in particular
`Established`). -/
def countedAsSuccess (t : PendingTunnel) : Bool :=
  match t.state with
  | TState.Pending => false
  | TState.BuildFailed => false
  | TState.BuildReplyReceived => false
  | _ => true

/-- Whether the pending sweep counts an entry as a failure: a timed-out
pending tunnel or a `BuildFailed` one. -/
def countedAsFailure (timeout ts : Nat) (t : PendingTunnel) : Bool :=
  isTimedOutPending timeout ts t || (t.state == TState.BuildFailed)

/-- Claim C4: one pending-map sweep at time `ts` keeps exactly the
within-timeout `Pending` entries and the `BuildReplyReceived` entries (the
latter are left in place); it emits, in map order, exactly one
`tunnelNonReplied` per hop identity of every timed-out `Pending` tunnel; the
failure counter grows by the number of timed-out `Pending` plus
`BuildFailed` entries; and the success counter grows by the number of
entries in any other state (`Established` in particular), which are erased. -/
theorem ManagePendingTunnels_spec (timeout ts : Nat)
    (m : List (Nat × PendingTunnel)) (succ fail : Nat) :
    (Tunnels.ManagePendingTunnels timeout ts m succ fail).1 =
      m.filter (fun p => keptInPending timeout ts p.2) ∧
    (Tunnels.ManagePendingTunnels timeout ts m succ fail).2.1 =
      succ + m.countP (fun p => countedAsSuccess p.2) ∧
    (Tunnels.ManagePendingTunnels timeout ts m succ fail).2.2.1 =
      fail + m.countP (fun p => countedAsFailure timeout ts p.2) ∧
    (Tunnels.ManagePendingTunnels timeout ts m succ fail).2.2.2 =
      (m.filter (fun p => isTimedOutPending timeout ts p.2)).flatMap
        (fun p => nonRepliedEvents p.2) := by
  induction m generalizing succ fail with
  | nil => simp [Tunnels.ManagePendingTunnels]
  | cons p rest ih =>
    obtain ⟨rid, t⟩ := p
    cases hstate : t.state with
    | Pending =>
      by_cases hto : pendingTimedOut timeout ts t = true
      · obtain ⟨ih1, ih2, ih3, ih4⟩ := ih succ (fail + 1)
        simp only [Tunnels.ManagePendingTunnels, hstate, hto, if_true,
          ih1, ih2, ih3, ih4, List.filter_cons, List.countP_cons,
          keptInPending, isTimedOutPending, countedAsSuccess,
          countedAsFailure, beq_self_eq_true, Bool.true_and, Bool.not_true,
          Bool.false_or, Bool.or_false]
        refine ⟨by simp [hto], by simp, by simp [hto]; omega, by simp [hto]⟩
      · have htof : pendingTimedOut timeout ts t = false := by simpa using hto
        obtain ⟨ih1, ih2, ih3, ih4⟩ := ih succ fail
        simp only [Tunnels.ManagePendingTunnels, hstate, htof, Bool.false_eq_true,
          if_false, ih1, ih2, ih3, ih4, List.filter_cons, List.countP_cons,
          keptInPending, isTimedOutPending, countedAsSuccess,
          countedAsFailure, beq_self_eq_true, Bool.true_and]
        refine ⟨by simp [htof], by simp, by simp [htof], by simp [htof]⟩
    | BuildFailed =>
      obtain ⟨ih1, ih2, ih3, ih4⟩ := ih succ (fail + 1)
      simp only [Tunnels.ManagePendingTunnels, hstate, ih1, ih2, ih3, ih4,
        List.filter_cons, List.countP_cons, keptInPending, isTimedOutPending,
        countedAsSuccess, countedAsFailure]
      refine ⟨by simp, by simp, by simp; omega, by simp⟩
    | BuildReplyReceived =>
      obtain ⟨ih1, ih2, ih3, ih4⟩ := ih succ fail
      simp only [Tunnels.ManagePendingTunnels, hstate, ih1, ih2, ih3, ih4,
        List.filter_cons, List.countP_cons, keptInPending, isTimedOutPending,
        countedAsSuccess, countedAsFailure]
      refine ⟨by simp, by simp, by simp, by simp⟩
    | Established =>
      obtain ⟨ih1, ih2, ih3, ih4⟩ := ih (succ + 1) fail
      simp only [Tunnels.ManagePendingTunnels, hstate, ih1, ih2, ih3, ih4,
        List.filter_cons, List.countP_cons, keptInPending, isTimedOutPending,
        countedAsSuccess, countedAsFailure]
      refine ⟨by simp, by simp; omega, by simp, by simp⟩
    | Expiring =>
      obtain ⟨ih1, ih2, ih3, ih4⟩ := ih (succ + 1) fail
      simp only [Tunnels.ManagePendingTunnels, hstate, ih1, ih2, ih3, ih4,
        List.filter_cons, List.countP_cons, keptInPending, isTimedOutPending,
        countedAsSuccess, countedAsFailure]
      refine ⟨by simp, by simp; omega, by simp, by simp⟩
    | Failed =>
      obtain ⟨ih1, ih2, ih3, ih4⟩ := ih (succ + 1) fail
      simp only [Tunnels.ManagePendingTunnels, hstate, ih1, ih2, ih3, ih4,
        List.filter_cons, List.countP_cons, keptInPending, isTimedOutPending,
        countedAsSuccess, countedAsFailure]
      refine ⟨by simp, by simp; omega, by simp, by simp⟩

/-- Function `Tunnels::GetPendingTunnel`: look the reply-message id up in the pending
map; if found and the tunnel's state is `Pending`, set the state to
`BuildReplyReceived` and return the tunnel, otherwise return null.  The
tunnel object is shared with the map, so the state change is visible there:
the function returns the possibly updated map alongside the result. -/
def Tunnels.GetPendingTunnel (replyMsgID : Nat)
    (pendingTunnels : List (Nat × PendingTunnel)) :
    Option PendingTunnel × List (Nat × PendingTunnel) :=
  match pendingTunnels.find? (fun q => q.1 == replyMsgID) with
  | some p =>
    if p.2.state = TState.Pending then
      (some { p.2 with state := TState.BuildReplyReceived },
       pendingTunnels.map (fun q =>
         if q.1 == replyMsgID then
           (q.1, { q.2 with state := TState.BuildReplyReceived })
         else q))
    else (none, pendingTunnels)
  | none => (none, pendingTunnels)

/-- Updating the value at a key commutes with looking the key up. -/
theorem find?_map_update (k : Nat) (f : PendingTunnel → PendingTunnel) :
    ∀ m : List (Nat × PendingTunnel),
    (m.map (fun q => if q.1 == k then (q.1, f q.2) else q)).find?
      (fun q => q.1 == k) =
    (m.find? (fun q => q.1 == k)).map (fun q => (q.1, f q.2)) := by
  intro m
  induction m with
  | nil => rfl
  | cons q rest ih =>
    by_cases hq : (q.1 == k) = true
    · simp only [List.map_cons, if_pos hq]
      rw [List.find?_cons, List.find?_cons]
      simp [hq]
    · have hqf : (q.1 == k) = false := by simpa using hq
      simp only [List.map_cons, if_neg hq]
      rw [List.find?_cons, List.find?_cons]
      simp only [hqf]
      exact ih

/-- Claim C9: when the reply-message id maps to an entry, that tunnel is
returned exactly when its state is `Pending` (and then with the state moved
to `BuildReplyReceived`); a second lookup with the same id on the resulting
map returns null, so a build response is processed at most once per pending
tunnel. -/
theorem GetPendingTunnel_processed_once (replyMsgID : Nat)
    (m : List (Nat × PendingTunnel)) (p : Nat × PendingTunnel)
    (hfind : m.find? (fun q => q.1 == replyMsgID) = some p) :
    ((Tunnels.GetPendingTunnel replyMsgID m).1 =
      (if p.2.state = TState.Pending
       then some { p.2 with state := TState.BuildReplyReceived }
       else none)) ∧
    (Tunnels.GetPendingTunnel replyMsgID
      (Tunnels.GetPendingTunnel replyMsgID m).2).1 = none := by
  constructor
  · simp only [Tunnels.GetPendingTunnel, hfind]
    by_cases hp : p.2.state = TState.Pending
    · rw [if_pos hp, if_pos hp]
    · rw [if_neg hp, if_neg hp]
  · by_cases hp : p.2.state = TState.Pending
    · simp only [Tunnels.GetPendingTunnel, hfind, if_pos hp]
      rw [find?_map_update replyMsgID
        (fun t => { t with state := TState.BuildReplyReceived }) m, hfind]
      simp
    · simp only [Tunnels.GetPendingTunnel, hfind, if_neg hp]

/-- A pending tunnel entry used in concrete examples. -/
def exPending : PendingTunnel :=
  { creationTime := 1000, state := TState.Pending, config := some exCfg }

/-- Claim C9, witness: on the one-entry map `5 ↦ exPending` (state
`Pending`), the first lookup of id 5 returns the tunnel moved to
`BuildReplyReceived` and the second lookup returns null. -/
theorem GetPendingTunnel_processed_once_witness :
    ((Tunnels.GetPendingTunnel 5 [(5, exPending)]).1 =
      (if exPending.state = TState.Pending
       then some { exPending with state := TState.BuildReplyReceived }
       else none)) ∧
    (Tunnels.GetPendingTunnel 5
      (Tunnels.GetPendingTunnel 5 [(5, exPending)]).2).1 = none :=
  GetPendingTunnel_processed_once 5 [(5, exPending)] (5, exPending) rfl
